import Mathlib

/-!
Verification of the dose-occurrence materializer and related operations of a
medication-adherence application (PillPal).

The embedding mirrors the TypeScript source:
* `generateUpcomingDoses` (PatientDashboard) becomes `stepPair` / `runPairs` /
  `generateUpcomingDoses`, with the database modelled as an explicit `DB` state
  holding the medication rows and the dose-log rows.
* the supabase one-minute-window lookup (`.gte .lt .maybeSingle`) becomes
  `lookupDoseLog`: `maybeSingle` yields a row only when there is exactly one
  match (on several matches it reports an error, which the caller discards,
  so the data is `none`).
* `markDoseTaken` / `markDoseSkipped` become pure state transformers.
* the caregiver-dashboard compliance computation becomes `todayCompliance`,
  with the JavaScript number arithmetic modelled over exact rationals and
  `Math.round` as `jsRound`.
Times are milliseconds since the epoch, as delivered by `Date.getTime()`.
-/

inductive DoseStatus where
  | pending
  | taken
  | missed
  | skipped
deriving DecidableEq, Repr

structure Schedule where
  id : Nat
  medicationId : Nat
  timeHours : Nat
  timeMinutes : Nat
  daysOfWeek : List Nat
  active : Bool
deriving DecidableEq, Repr

structure Medication where
  id : Nat
  patientId : Nat
  name : String
  dosage : String
  instructions : String
  active : Bool
  schedules : List Schedule
deriving DecidableEq, Repr

structure DoseLog where
  id : Nat
  scheduleId : Nat
  scheduledTime : Nat
  takenAt : Option Nat
  status : DoseStatus
  notes : Option String
deriving DecidableEq, Repr

/-- The persistent state the dashboard reads and writes: the medication rows
(with their schedules) and the dose-log rows.  `nextLogId` models the id the
store assigns to the next inserted dose-log row. -/
structure DB where
  meds : List Medication
  logs : List DoseLog
  nextLogId : Nat
deriving DecidableEq, Repr

/-- The sampled current instant: the millisecond timestamp of local midnight
today (`dayStart`), the milliseconds elapsed since midnight (`msOfDay`), and
`getDay()`, the local weekday index 0=Sunday..6=Saturday. -/
structure Now where
  dayStart : Nat
  msOfDay : Nat
  weekday : Nat
deriving DecidableEq, Repr

def Now.time (n : Now) : Nat := n.dayStart + n.msOfDay

/-- Combining today's date with a schedule's time-of-day:
`scheduledTime.setHours(hours, minutes, 0, 0)` on a copy of `now`. -/
def scheduledTimeOf (n : Now) (s : Schedule) : Nat :=
  n.dayStart + s.timeHours * 3600000 + s.timeMinutes * 60000

/-- One dose-occurrence record handed to the rendering code. -/
structure UpcomingDose where
  medication : Medication
  schedule : Schedule
  scheduledTime : Nat
  doseLog : Option DoseLog
deriving DecidableEq, Repr

/-- The status the dashboard renders: the backing row's status, or `pending`
when the occurrence has no backing row (`dose.doseLog?.status ?? 'pending'`). -/
def UpcomingDose.displayStatus (d : UpcomingDose) : DoseStatus :=
  match d.doseLog with
  | some l => l.status
  | none => DoseStatus.pending

/-- Everything the dashboard renders for one occurrence (the backing row's
store-assigned id is not displayed). -/
structure DoseView where
  medication : Medication
  schedule : Schedule
  scheduledTime : Nat
  status : DoseStatus
deriving DecidableEq, Repr

def UpcomingDose.view (d : UpcomingDose) : DoseView :=
  ⟨d.medication, d.schedule, d.scheduledTime, d.displayStatus⟩

/-- The window predicate of the existing-log query:
`schedule_id = sid` and `scheduled_time ∈ [t, t + 60000)`. -/
def logMatches (sid t : Nat) (l : DoseLog) : Bool :=
  decide (l.scheduleId = sid ∧ t ≤ l.scheduledTime ∧ l.scheduledTime < t + 60000)

/-- The `.maybeSingle()` lookup: the matching row when it is unique; `none`
when there is no match, and also when there are several matches (in that case
the client returns an error together with `null` data, and
`generateUpcomingDoses` destructures only the data). -/
def lookupDoseLog (sid t : Nat) (logs : List DoseLog) : Option DoseLog :=
  match logs.filter (logMatches sid t) with
  | [l] => some l
  | _ => none

/-- One iteration of the inner loop of `generateUpcomingDoses` for the pair of
a medication and one of its active schedules: weekday gate, window lookup,
conditional insert of a fresh `pending` row, and the pushed occurrence
records. -/
def stepPair (now : Now) (db : DB) (p : Medication × Schedule) :
    DB × List UpcomingDose :=
  if now.weekday ∈ p.2.daysOfWeek then
    let t := scheduledTimeOf now p.2
    match lookupDoseLog p.2.id t db.logs with
    | some l => (db, [⟨p.1, p.2, t, some l⟩])
    | none =>
      if (t : Int) - (now.time : Int) < 3600000 then
        let newLog : DoseLog :=
          ⟨db.nextLogId, p.2.id, t, none, DoseStatus.pending, none⟩
        ({ db with logs := db.logs ++ [newLog], nextLogId := db.nextLogId + 1 },
          [⟨p.1, p.2, t, some newLog⟩])
      else (db, [])
  else (db, [])

/-- The two nested loops of `generateUpcomingDoses`, threading the store state
and accumulating the pushed occurrences in iteration order. -/
def runPairs (now : Now) : DB → List (Medication × Schedule) → DB × List UpcomingDose
  | db, [] => (db, [])
  | db, p :: ps =>
    let r := stepPair now db p
    let rest := runPairs now r.1 ps
    (rest.1, r.2 ++ rest.2)

/-- The iteration domain of the two loops: every medication of the list paired
with each of its schedules that passes the `filter(s => s.active)`. -/
def activeSchedulePairs (meds : List Medication) : List (Medication × Schedule) :=
  meds.flatMap fun m => (m.schedules.filter fun s => s.active).map fun s => (m, s)

def pairSids (ps : List (Medication × Schedule)) : List Nat :=
  ps.map fun p => p.2.id

/-- The comparator of `doses.sort((a, b) => a.scheduledTime - b.scheduledTime)`. -/
def doseLE (a b : UpcomingDose) : Prop :=
  a.scheduledTime ≤ b.scheduledTime

instance : DecidableRel doseLE :=
  fun a b => inferInstanceAs (Decidable (a.scheduledTime ≤ b.scheduledTime))

instance : IsTotal UpcomingDose doseLE :=
  ⟨fun a b => Nat.le_total a.scheduledTime b.scheduledTime⟩

instance : IsTrans UpcomingDose doseLE :=
  ⟨fun _ _ _ => Nat.le_trans⟩

/-- All occurrence records collected by one pass, in loop order. -/
def allDoses (now : Now) (meds : List Medication) (db : DB) : List UpcomingDose :=
  (runPairs now db (activeSchedulePairs meds)).2

/-- The collected occurrences after the ascending sort by scheduled time. -/
def sortedDoses (now : Now) (meds : List Medication) (db : DB) : List UpcomingDose :=
  List.insertionSort doseLE (allDoses now meds db)

/-- `doses.slice(0, 5)`: the list `setUpcomingDoses` receives. -/
def displayedDoses (now : Now) (meds : List Medication) (db : DB) : List UpcomingDose :=
  (sortedDoses now meds db).take 5

/-- `generateUpcomingDoses`: runs the two loops over the given medications,
then sorts and exposes the nearest five occurrences. -/
def generateUpcomingDoses (now : Now) (meds : List Medication) (db : DB) :
    DB × List UpcomingDose :=
  ((runPairs now db (activeSchedulePairs meds)).1, displayedDoses now meds db)

/-- `loadData`: fetches the active medications with their schedules and feeds
them to `generateUpcomingDoses`. -/
def loadData (now : Now) (db : DB) : DB × List UpcomingDose :=
  generateUpcomingDoses now (db.meds.filter fun m => m.active) db

/-- The store state after one materialization pass. -/
def materializePass (now : Now) (db : DB) : DB :=
  (loadData now db).1

/-- The dose-log rows a pass appended to the store. -/
def createdLogs (now : Now) (db : DB) : List DoseLog :=
  (materializePass now db).logs.drop db.logs.length

/-- `markDoseTaken`: no-op without a backing row; otherwise updates the row
with that id to status `taken` with `taken_at` the time of the action. -/
def markDoseTaken (takenTime : Nat) (dose : UpcomingDose) (db : DB) : DB :=
  match dose.doseLog with
  | none => db
  | some dl =>
    { db with logs := db.logs.map fun l =>
        if l.id = dl.id then
          { l with status := DoseStatus.taken, takenAt := some takenTime }
        else l }

/-- `markDoseSkipped`: no-op without a backing row; otherwise updates the row
with that id to status `skipped` (no other column is touched). -/
def markDoseSkipped (dose : UpcomingDose) (db : DB) : DB :=
  match dose.doseLog with
  | none => db
  | some dl =>
    { db with logs := db.logs.map fun l =>
        if l.id = dl.id then { l with status := DoseStatus.skipped } else l }

/-- `Math.round` on nonnegative arguments: half-up rounding. -/
def jsRound (q : ℚ) : ℤ := ⌊q + 1 / 2⌋

/-- The caregiver dashboard's per-patient dose-log query for "today":
`scheduled_time >= today-at-midnight` over the patient's logs. -/
def todayDoseLogs (dayStart : Nat) (logs : List DoseLog) : List DoseLog :=
  logs.filter fun l => decide (dayStart ≤ l.scheduledTime)

/-- `todayCompliance`: `Math.round((takenDoses / totalDoses) * 100)` when the
patient has dose logs today, otherwise `100`. -/
def todayCompliance (dayStart : Nat) (logs : List DoseLog) : ℤ :=
  let todays := todayDoseLogs dayStart logs
  let total := todays.length
  let taken := (todays.filter fun l => decide (l.status = DoseStatus.taken)).length
  if 0 < total then jsRound ((taken : ℚ) / (total : ℚ) * 100) else 100

/-- The identifying columns of a dose-log row apart from its store-assigned id. -/
structure LogData where
  scheduleId : Nat
  scheduledTime : Nat
  takenAt : Option Nat
  status : DoseStatus
deriving DecidableEq, Repr

def DoseLog.data (l : DoseLog) : LogData :=
  ⟨l.scheduleId, l.scheduledTime, l.takenAt, l.status⟩

/-- The fresh row `stepPair` inserts for the pair `p` at scheduled time `t`. -/
def freshLog (db : DB) (p : Medication × Schedule) (t : Nat) : DoseLog :=
  ⟨db.nextLogId, p.2.id, t, none, DoseStatus.pending, none⟩

/-- The occurrences of the output belonging to one schedule id. -/
def dosesFor (out : List UpcomingDose) (sid : Nat) : List UpcomingDose :=
  out.filter fun d => decide (d.schedule.id = sid)

/-- The rows of a log list belonging to one schedule id. -/
def logsFor (ls : List DoseLog) (sid : Nat) : List DoseLog :=
  ls.filter fun l => decide (l.scheduleId = sid)

/-- The condition under which `stepPair` inserts a fresh row. -/
def stepInserts (now : Now) (db : DB) (p : Medication × Schedule) : Prop :=
  now.weekday ∈ p.2.daysOfWeek ∧
    lookupDoseLog p.2.id (scheduledTimeOf now p.2) db.logs = none ∧
    (scheduledTimeOf now p.2 : Int) - (now.time : Int) < 3600000

instance (now : Now) (db : DB) (p : Medication × Schedule) :
    Decidable (stepInserts now db p) := by
  unfold stepInserts; infer_instance

/-- Number of rows matching the one-minute window of the pair `p`. -/
def windowCount (now : Now) (db : DB) (p : Medication × Schedule) : Nat :=
  (db.logs.filter (logMatches p.2.id (scheduledTimeOf now p.2))).length

/-- Distinctness of the deduplication key: two rows differ in schedule id or
in scheduled timestamp. -/
def logKeyNe (a b : DoseLog) : Prop :=
  ¬(a.scheduleId = b.scheduleId ∧ a.scheduledTime = b.scheduledTime)

/-- The view a pair contributes when processed against a given store state. -/
def viewStep (now : Now) (db : DB) (p : Medication × Schedule) : Option DoseView :=
  match (stepPair now db p).2 with
  | [] => none
  | d :: _ => some d.view

def viewLE (a b : DoseView) : Prop := a.scheduledTime ≤ b.scheduledTime

def viewLT (a b : DoseView) : Prop := a.scheduledTime < b.scheduledTime

instance : IsAntisymm DoseView viewLT :=
  ⟨fun _ _ h h' => (Nat.lt_asymm h h').elim⟩

/-- Example instances: a Monday-morning scenario used to exhibit concrete
behavior.  `exNow` is Monday 07:50 (weekday 1), with local midnight at 0. -/
def exSchedA : Schedule := ⟨1, 10, 8, 0, [1], true⟩

def exSchedB : Schedule := ⟨2, 11, 8, 0, [1], true⟩

def exSchedC : Schedule := ⟨3, 12, 8, 30, [1], true⟩

def exMedA : Medication := ⟨10, 100, "Aspirin", "100mg", "", true, [exSchedA]⟩

def exMedB : Medication := ⟨11, 100, "Lisinopril", "10mg", "", true, [exSchedB]⟩

def exMedC : Medication := ⟨12, 100, "Metformin", "500mg", "", true, [exSchedC]⟩

def exNow : Now := ⟨0, 7 * 3600000 + 50 * 60000, 1⟩

def exDb : DB := ⟨[exMedA], [], 0⟩

def exTakenLog : DoseLog := ⟨0, 1, 28800000, some 28500000, DoseStatus.taken, none⟩

def exDbTaken : DB := ⟨[exMedA], [exTakenLog], 1⟩

def exDoseTaken : UpcomingDose := ⟨exMedA, exSchedA, 28800000, some exTakenLog⟩

def exDoseNoLog : UpcomingDose := ⟨exMedA, exSchedA, 28800000, none⟩

def exPendingLog : DoseLog := ⟨0, 1, 28800000, none, DoseStatus.pending, none⟩

def exDbPending : DB := ⟨[exMedA], [exPendingLog], 1⟩

def exDosePending : UpcomingDose := ⟨exMedA, exSchedA, 28800000, some exPendingLog⟩

/-- The row `exPendingLog` becomes after being marked taken at 28500000. -/
def exUpdatedLog : DoseLog := ⟨0, 1, 28800000, some 28500000, DoseStatus.taken, none⟩

def exNowTue : Now := ⟨0, 7 * 3600000 + 50 * 60000, 2⟩

def exNowEarly : Now := ⟨0, 5 * 3600000, 1⟩

instance : DecidableRel logKeyNe := fun a b => by
  unfold logKeyNe
  infer_instance

lemma stepPair_not_weekday {now : Now} {db : DB} {p : Medication × Schedule}
    (hw : now.weekday ∉ p.2.daysOfWeek) : stepPair now db p = (db, []) := by
  simp [stepPair, hw]

lemma stepPair_found {now : Now} {db : DB} {p : Medication × Schedule} {l : DoseLog}
    (hw : now.weekday ∈ p.2.daysOfWeek)
    (hl : lookupDoseLog p.2.id (scheduledTimeOf now p.2) db.logs = some l) :
    stepPair now db p = (db, [⟨p.1, p.2, scheduledTimeOf now p.2, some l⟩]) := by
  simp [stepPair, hw, hl]

lemma stepPair_far {now : Now} {db : DB} {p : Medication × Schedule}
    (hw : now.weekday ∈ p.2.daysOfWeek)
    (hl : lookupDoseLog p.2.id (scheduledTimeOf now p.2) db.logs = none)
    (hf : ¬ ((scheduledTimeOf now p.2 : Int) - (now.time : Int) < 3600000)) :
    stepPair now db p = (db, []) := by
  simp [stepPair, hw, hl, hf]

lemma stepPair_insert {now : Now} {db : DB} {p : Medication × Schedule}
    (hw : now.weekday ∈ p.2.daysOfWeek)
    (hl : lookupDoseLog p.2.id (scheduledTimeOf now p.2) db.logs = none)
    (hn : (scheduledTimeOf now p.2 : Int) - (now.time : Int) < 3600000) :
    stepPair now db p =
      ({ db with logs := db.logs ++ [freshLog db p (scheduledTimeOf now p.2)], nextLogId := db.nextLogId + 1 },
        [⟨p.1, p.2, scheduledTimeOf now p.2,
          some (freshLog db p (scheduledTimeOf now p.2))⟩]) := by
  simp [stepPair, hw, hl, hn, freshLog]

lemma stepPair_meds (now : Now) (db : DB) (p : Medication × Schedule) :
    (stepPair now db p).1.meds = db.meds := by
  by_cases hw : now.weekday ∈ p.2.daysOfWeek
  · cases hl : lookupDoseLog p.2.id (scheduledTimeOf now p.2) db.logs with
    | some l => rw [stepPair_found hw hl]
    | none =>
      by_cases hn : (scheduledTimeOf now p.2 : Int) - (now.time : Int) < 3600000
      · rw [stepPair_insert hw hl hn]
      · rw [stepPair_far hw hl hn]
  · rw [stepPair_not_weekday hw]

lemma stepPair_logs_append (now : Now) (db : DB) (p : Medication × Schedule) :
    ∃ e, (stepPair now db p).1.logs = db.logs ++ e ∧
      (stepPair now db p).1.nextLogId = db.nextLogId + e.length ∧
      ∀ l ∈ e, l.scheduleId = p.2.id ∧ l.scheduledTime = scheduledTimeOf now p.2 ∧
        l.status = DoseStatus.pending ∧ l.takenAt = none := by
  by_cases hw : now.weekday ∈ p.2.daysOfWeek
  · cases hl : lookupDoseLog p.2.id (scheduledTimeOf now p.2) db.logs with
    | some l => exact ⟨[], by simp [stepPair_found hw hl]⟩
    | none =>
      by_cases hn : (scheduledTimeOf now p.2 : Int) - (now.time : Int) < 3600000
      · refine ⟨[freshLog db p (scheduledTimeOf now p.2)], ?_⟩
        simp [stepPair_insert hw hl hn, freshLog]
      · exact ⟨[], by simp [stepPair_far hw hl hn]⟩
  · exact ⟨[], by simp [stepPair_not_weekday hw]⟩

lemma runPairs_cons (now : Now) (db : DB) (p : Medication × Schedule)
    (ps : List (Medication × Schedule)) :
    runPairs now db (p :: ps) =
      ((runPairs now (stepPair now db p).1 ps).1,
        (stepPair now db p).2 ++ (runPairs now (stepPair now db p).1 ps).2) := rfl

lemma runPairs_meds (now : Now) :
    ∀ (ps : List (Medication × Schedule)) (db : DB),
      (runPairs now db ps).1.meds = db.meds
  | [], _ => rfl
  | p :: ps, db => by
    rw [runPairs_cons]
    exact (runPairs_meds now ps (stepPair now db p).1).trans (stepPair_meds now db p)

lemma runPairs_logs_append (now : Now) :
    ∀ (ps : List (Medication × Schedule)) (db : DB),
      ∃ e, (runPairs now db ps).1.logs = db.logs ++ e ∧
        (runPairs now db ps).1.nextLogId = db.nextLogId + e.length ∧
        ∀ l ∈ e, (∃ p ∈ ps, l.scheduleId = p.2.id ∧
            l.scheduledTime = scheduledTimeOf now p.2) ∧
          l.status = DoseStatus.pending ∧ l.takenAt = none
  | [], db => ⟨[], by simp [runPairs]⟩
  | p :: ps, db => by
    obtain ⟨e₁, he₁, hn₁, hp₁⟩ := stepPair_logs_append now db p
    obtain ⟨e₂, he₂, hn₂, hp₂⟩ := runPairs_logs_append now ps (stepPair now db p).1
    refine ⟨e₁ ++ e₂, ?_, ?_, ?_⟩
    · rw [runPairs_cons]; rw [he₂, he₁, List.append_assoc]
    · rw [runPairs_cons] at *; rw [hn₂, hn₁, List.length_append]; omega
    · intro l hl
      rcases List.mem_append.1 hl with h | h
      · obtain ⟨h1, h2, h3, h4⟩ := hp₁ l h
        exact ⟨⟨p, List.mem_cons_self .., h1, h2⟩, h3, h4⟩
      · obtain ⟨⟨q, hq, h1⟩, h3, h4⟩ := hp₂ l h
        exact ⟨⟨q, List.mem_cons_of_mem _ hq, h1⟩, h3, h4⟩

lemma logMatches_eq_true_iff {sid t : Nat} {l : DoseLog} :
    logMatches sid t l = true ↔
      l.scheduleId = sid ∧ t ≤ l.scheduledTime ∧ l.scheduledTime < t + 60000 := by
  simp [logMatches]

lemma lookup_append_irrelevant {sid t : Nat} {l e : List DoseLog}
    (he : ∀ x ∈ e, x.scheduleId ≠ sid) :
    lookupDoseLog sid t (l ++ e) = lookupDoseLog sid t l := by
  have hfe : e.filter (logMatches sid t) = [] := by
    apply List.filter_eq_nil_iff.2
    intro x hx hmx
    exact he x hx (logMatches_eq_true_iff.1 hmx).1
  unfold lookupDoseLog
  rw [List.filter_append, hfe, List.append_nil]

lemma stepPair_out_fields (now : Now) (db : DB) (p : Medication × Schedule) :
    ∀ d ∈ (stepPair now db p).2, d.medication = p.1 ∧ d.schedule = p.2 ∧
      d.scheduledTime = scheduledTimeOf now p.2 := by
  by_cases hw : now.weekday ∈ p.2.daysOfWeek
  · cases hl : lookupDoseLog p.2.id (scheduledTimeOf now p.2) db.logs with
    | some l =>
      rw [stepPair_found hw hl]
      intro d hd
      rw [List.mem_singleton] at hd
      subst hd
      exact ⟨rfl, rfl, rfl⟩
    | none =>
      by_cases hn : (scheduledTimeOf now p.2 : Int) - (now.time : Int) < 3600000
      · rw [stepPair_insert hw hl hn]
        intro d hd
        rw [List.mem_singleton] at hd
        subst hd
        exact ⟨rfl, rfl, rfl⟩
      · rw [stepPair_far hw hl hn]
        intro d hd
        exact absurd hd (List.not_mem_nil d)
  · rw [stepPair_not_weekday hw]
    intro d hd
    exact absurd hd (List.not_mem_nil d)

lemma runPairs_out_mem (now : Now) :
    ∀ (ps : List (Medication × Schedule)) (db : DB),
      ∀ d ∈ (runPairs now db ps).2, ∃ p ∈ ps, d.schedule = p.2
  | [], _ => by rintro d hd; cases hd
  | p :: ps, db => by
    rw [runPairs_cons]
    rintro d hd
    rcases List.mem_append.1 hd with h | h
    · exact ⟨p, List.mem_cons_self .., (stepPair_out_fields now db p d h).2.1⟩
    · obtain ⟨q, hq, h1⟩ := runPairs_out_mem now ps (stepPair now db p).1 d h
      exact ⟨q, List.mem_cons_of_mem _ hq, h1⟩

lemma dosesFor_append (a b : List UpcomingDose) (sid : Nat) :
    dosesFor (a ++ b) sid = dosesFor a sid ++ dosesFor b sid :=
  List.filter_append ..

lemma logsFor_append (a b : List DoseLog) (sid : Nat) :
    logsFor (a ++ b) sid = logsFor a sid ++ logsFor b sid :=
  List.filter_append ..

lemma dosesFor_eq_self {out : List UpcomingDose} {sid : Nat}
    (h : ∀ d ∈ out, d.schedule.id = sid) : dosesFor out sid = out :=
  List.filter_eq_self.2 fun d hd => decide_eq_true (h d hd)

lemma dosesFor_eq_nil {out : List UpcomingDose} {sid : Nat}
    (h : ∀ d ∈ out, d.schedule.id ≠ sid) : dosesFor out sid = [] :=
  List.filter_eq_nil_iff.2 fun d hd => by simpa using h d hd

lemma logsFor_eq_self {ls : List DoseLog} {sid : Nat}
    (h : ∀ l ∈ ls, l.scheduleId = sid) : logsFor ls sid = ls :=
  List.filter_eq_self.2 fun l hl => decide_eq_true (h l hl)

lemma logsFor_eq_nil {ls : List DoseLog} {sid : Nat}
    (h : ∀ l ∈ ls, l.scheduleId ≠ sid) : logsFor ls sid = [] :=
  List.filter_eq_nil_iff.2 fun l hl => by simpa using h l hl

lemma stepPair_view_congr {now : Now} {db db₂ : DB} {p : Medication × Schedule}
    {e : List DoseLog} (hle : db₂.logs = db.logs ++ e)
    (he : ∀ x ∈ e, x.scheduleId ≠ p.2.id) :
    (stepPair now db₂ p).2.map UpcomingDose.view
      = (stepPair now db p).2.map UpcomingDose.view := by
  have hlk : lookupDoseLog p.2.id (scheduledTimeOf now p.2) db₂.logs
      = lookupDoseLog p.2.id (scheduledTimeOf now p.2) db.logs := by
    rw [hle]; exact lookup_append_irrelevant he
  by_cases hw : now.weekday ∈ p.2.daysOfWeek
  · cases hl : lookupDoseLog p.2.id (scheduledTimeOf now p.2) db.logs with
    | some l => rw [stepPair_found hw (hlk.trans hl), stepPair_found hw hl]
    | none =>
      by_cases hn : (scheduledTimeOf now p.2 : Int) - (now.time : Int) < 3600000
      · rw [stepPair_insert hw (hlk.trans hl) hn, stepPair_insert hw hl hn]
        simp [UpcomingDose.view, UpcomingDose.displayStatus, freshLog]
      · rw [stepPair_far hw (hlk.trans hl) hn, stepPair_far hw hl hn]
  · rw [stepPair_not_weekday hw, stepPair_not_weekday hw]

lemma stepPair_created_congr {now : Now} {db db₂ : DB} {p : Medication × Schedule}
    {e : List DoseLog} (hle : db₂.logs = db.logs ++ e)
    (he : ∀ x ∈ e, x.scheduleId ≠ p.2.id) :
    ((stepPair now db₂ p).1.logs.drop db₂.logs.length).map DoseLog.data
      = ((stepPair now db p).1.logs.drop db.logs.length).map DoseLog.data := by
  have hlk : lookupDoseLog p.2.id (scheduledTimeOf now p.2) db₂.logs
      = lookupDoseLog p.2.id (scheduledTimeOf now p.2) db.logs := by
    rw [hle]; exact lookup_append_irrelevant he
  by_cases hw : now.weekday ∈ p.2.daysOfWeek
  · cases hl : lookupDoseLog p.2.id (scheduledTimeOf now p.2) db.logs with
    | some l =>
      rw [stepPair_found hw (hlk.trans hl), stepPair_found hw hl]
      simp [List.drop_length]
    | none =>
      by_cases hn : (scheduledTimeOf now p.2 : Int) - (now.time : Int) < 3600000
      · rw [stepPair_insert hw (hlk.trans hl) hn, stepPair_insert hw hl hn]
        simp [List.drop_left, freshLog, DoseLog.data]
      · rw [stepPair_far hw (hlk.trans hl) hn, stepPair_far hw hl hn]
        simp [List.drop_length]
  · rw [stepPair_not_weekday hw, stepPair_not_weekday hw]
    simp [List.drop_length]

/-- The contribution of one pair to a whole pass: when schedule ids are
pairwise distinct, the occurrences and the created rows carrying a pair's
schedule id are exactly what processing that pair against the initial store
produces (up to the store-assigned row id). -/
lemma runPairs_contribution (now : Now) :
    ∀ (ps : List (Medication × Schedule)) (db : DB),
      (pairSids ps).Nodup →
      ∀ p ∈ ps,
        (dosesFor (runPairs now db ps).2 p.2.id).map UpcomingDose.view
            = (stepPair now db p).2.map UpcomingDose.view
        ∧ (logsFor ((runPairs now db ps).1.logs.drop db.logs.length) p.2.id).map DoseLog.data
            = ((stepPair now db p).1.logs.drop db.logs.length).map DoseLog.data
  | [], _, _, p, hp => absurd hp (List.not_mem_nil p)
  | q :: qs, db, hnd, p, hp => by
    obtain ⟨e₁, he₁, _, hp₁⟩ := stepPair_logs_append now db q
    obtain ⟨e₂, he₂, _, hp₂⟩ := runPairs_logs_append now qs (stepPair now db q).1
    have hnd' : (pairSids qs).Nodup := (List.nodup_cons.1 hnd).2
    have hq_not : q.2.id ∉ pairSids qs := (List.nodup_cons.1 hnd).1
    have hfinal_logs : (runPairs now db (q :: qs)).1.logs = db.logs ++ (e₁ ++ e₂) := by
      rw [runPairs_cons, he₂, he₁, List.append_assoc]
    have hdrop : (runPairs now db (q :: qs)).1.logs.drop db.logs.length = e₁ ++ e₂ := by
      rw [hfinal_logs, List.drop_left]
    have hout : (runPairs now db (q :: qs)).2
        = (stepPair now db q).2 ++ (runPairs now (stepPair now db q).1 qs).2 := by
      rw [runPairs_cons]
    have he₁sid : ∀ x ∈ e₁, x.scheduleId = q.2.id := fun x hx => (hp₁ x hx).1
    have he₂sid : ∀ x ∈ e₂, x.scheduleId ∈ pairSids qs := by
      intro x hx
      obtain ⟨⟨r, hr, hrs, _⟩, _, _⟩ := hp₂ x hx
      rw [hrs]
      exact List.mem_map_of_mem _ hr
    rcases List.mem_cons.1 hp with rfl | hp'
    · constructor
      · rw [hout, dosesFor_append]
        rw [dosesFor_eq_self fun d hd => by
          rw [(stepPair_out_fields now db p d hd).2.1]]
        rw [dosesFor_eq_nil fun d hd => by
          obtain ⟨r, hr, hds⟩ := runPairs_out_mem now qs (stepPair now db p).1 d hd
          rw [hds]
          exact fun h => hq_not (h ▸ List.mem_map_of_mem _ hr)]
        rw [List.append_nil]
      · rw [hdrop, logsFor_append, logsFor_eq_self he₁sid,
          logsFor_eq_nil fun x hx h => hq_not (by rw [← h]; exact he₂sid x hx),
          List.append_nil, he₁, List.drop_left]
    · have hqp : q.2.id ≠ p.2.id := by
        intro h
        exact hq_not (h ▸ List.mem_map_of_mem _ hp')
      have he₁foreign : ∀ x ∈ e₁, x.scheduleId ≠ p.2.id := by
        intro x hx
        rw [he₁sid x hx]
        exact hqp
      obtain ⟨ih1, ih2⟩ := runPairs_contribution now qs (stepPair now db q).1 hnd' p hp'
      constructor
      · rw [hout, dosesFor_append]
        rw [dosesFor_eq_nil fun d hd => by
          rw [(stepPair_out_fields now db q d hd).2.1]
          exact hqp]
        rw [List.nil_append, ih1]
        exact stepPair_view_congr he₁ he₁foreign
      · rw [hdrop, logsFor_append, logsFor_eq_nil he₁foreign, List.nil_append]
        have he₂drop : (runPairs now (stepPair now db q).1 qs).1.logs.drop
            (stepPair now db q).1.logs.length = e₂ := by
          rw [he₂, List.drop_left]
        rw [he₂drop] at ih2
        rw [ih2]
        exact stepPair_created_congr he₁ he₁foreign

lemma filter_logMatches_eq_nil {sid t : Nat} {e : List DoseLog}
    (he : ∀ x ∈ e, x.scheduleId ≠ sid) : e.filter (logMatches sid t) = [] :=
  List.filter_eq_nil_iff.2 fun x hx hmx => he x hx (logMatches_eq_true_iff.1 hmx).1

lemma lookupDoseLog_of_filter_nil {sid t : Nat} {logs : List DoseLog}
    (h : logs.filter (logMatches sid t) = []) : lookupDoseLog sid t logs = none := by
  unfold lookupDoseLog; rw [h]

lemma lookupDoseLog_of_filter_singleton {sid t : Nat} {logs : List DoseLog} {x : DoseLog}
    (h : logs.filter (logMatches sid t) = [x]) : lookupDoseLog sid t logs = some x := by
  unfold lookupDoseLog; rw [h]

lemma filter_eq_nil_of_lookup_none {sid t : Nat} {logs : List DoseLog}
    (h : lookupDoseLog sid t logs = none)
    (hc : (logs.filter (logMatches sid t)).length ≤ 1) :
    logs.filter (logMatches sid t) = [] := by
  rcases hfil : logs.filter (logMatches sid t) with _ | ⟨x, _ | ⟨y, rest⟩⟩
  · rfl
  · rw [lookupDoseLog_of_filter_singleton hfil] at h
    cases h
  · rw [hfil] at hc
    simp at hc

lemma windowCount_congr {now : Now} {db db₂ : DB} {p : Medication × Schedule}
    {e : List DoseLog} (hle : db₂.logs = db.logs ++ e)
    (he : ∀ x ∈ e, x.scheduleId ≠ p.2.id) :
    windowCount now db₂ p = windowCount now db p := by
  unfold windowCount
  rw [hle, List.filter_append, filter_logMatches_eq_nil he, List.append_nil]

lemma stepInserts_congr {now : Now} {db db₂ : DB} {p : Medication × Schedule}
    {e : List DoseLog} (hle : db₂.logs = db.logs ++ e)
    (he : ∀ x ∈ e, x.scheduleId ≠ p.2.id) :
    stepInserts now db₂ p ↔ stepInserts now db p := by
  unfold stepInserts
  rw [hle, lookup_append_irrelevant he]

lemma stepPair_db_of_not_inserts {now : Now} {db : DB} {p : Medication × Schedule}
    (h : ¬ stepInserts now db p) : (stepPair now db p).1 = db := by
  by_cases hw : now.weekday ∈ p.2.daysOfWeek
  · cases hl : lookupDoseLog p.2.id (scheduledTimeOf now p.2) db.logs with
    | some l => rw [stepPair_found hw hl]
    | none =>
      by_cases hn : (scheduledTimeOf now p.2 : Int) - (now.time : Int) < 3600000
      · exact absurd ⟨hw, hl, hn⟩ h
      · rw [stepPair_far hw hl hn]
  · rw [stepPair_not_weekday hw]

lemma runPairs_fix (now : Now) :
    ∀ (ps : List (Medication × Schedule)) (db : DB),
      (∀ p ∈ ps, ¬ stepInserts now db p) → (runPairs now db ps).1 = db
  | [], _, _ => rfl
  | p :: ps, db, h => by
    rw [runPairs_cons, stepPair_db_of_not_inserts (h p (List.mem_cons_self ..))]
    exact runPairs_fix now ps db fun q hq => h q (List.mem_cons_of_mem _ hq)

lemma logMatches_freshLog (db : DB) (p : Medication × Schedule) (t : Nat) :
    logMatches p.2.id t (freshLog db p t) = true := by
  simp [logMatches, freshLog]

/-- Master invariant of a pass: starting from a store with pairwise-distinct
deduplication keys and at most one window match per pair, a pass keeps both
properties, and afterwards no pair would insert again. -/
lemma runPairs_dedup_master (now : Now) :
    ∀ (ps : List (Medication × Schedule)) (db : DB),
      (pairSids ps).Nodup →
      (∀ p ∈ ps, windowCount now db p ≤ 1) →
      db.logs.Pairwise logKeyNe →
      ((runPairs now db ps).1.logs.Pairwise logKeyNe
        ∧ (∀ p ∈ ps, windowCount now (runPairs now db ps).1 p ≤ 1)
        ∧ (∀ p ∈ ps, ¬ stepInserts now (runPairs now db ps).1 p))
  | [], db, _, _, hpw => ⟨hpw, fun p hp => absurd hp (List.not_mem_nil p),
      fun p hp => absurd hp (List.not_mem_nil p)⟩
  | q :: qs, db, hnd, hwc, hpw => by
    have hnd' : (pairSids qs).Nodup := (List.nodup_cons.1 hnd).2
    have hq_not : q.2.id ∉ pairSids qs := (List.nodup_cons.1 hnd).1
    have hforeign : ∀ p ∈ qs, q.2.id ≠ p.2.id := by
      intro p hp h
      exact hq_not (h ▸ List.mem_map_of_mem _ hp)
    by_cases hins : stepInserts now db q
    · obtain ⟨hw, hl, hn⟩ := hins
      have hfil : db.logs.filter (logMatches q.2.id (scheduledTimeOf now q.2)) = [] :=
        filter_eq_nil_of_lookup_none hl (hwc q (List.mem_cons_self ..))
      have hstep := stepPair_insert hw hl hn
      set t := scheduledTimeOf now q.2 with ht
      set db₁ := (stepPair now db q).1 with hdb₁
      have hlogs₁ : db₁.logs = db.logs ++ [freshLog db q t] := by
        rw [hdb₁, hstep]
      have hfr : ∀ x ∈ [freshLog db q t], x.scheduleId = q.2.id := by
        intro x hx
        rw [List.mem_singleton] at hx
        subst hx
        rfl
      have hpw₁ : db₁.logs.Pairwise logKeyNe := by
        rw [hlogs₁]
        rw [List.pairwise_append]
        refine ⟨hpw, List.pairwise_singleton _ _, ?_⟩
        intro a ha x hx
        rw [List.mem_singleton] at hx
        subst hx
        rintro ⟨h1, h2⟩
        have hmx : logMatches q.2.id t a = true := by
          rw [logMatches_eq_true_iff]
          refine ⟨h1, ?_, ?_⟩
          · rw [h2]; simp [freshLog]
          · rw [h2]; simp [freshLog]
        have : a ∈ db.logs.filter (logMatches q.2.id t) := List.mem_filter.2 ⟨ha, hmx⟩
        rw [hfil] at this
        exact absurd this (List.not_mem_nil a)
      have hfil₁ : db₁.logs.filter (logMatches q.2.id t) = [freshLog db q t] := by
        rw [hlogs₁, List.filter_append, hfil, List.nil_append, List.filter_cons,
          logMatches_freshLog]
        simp
      have hwc₁q : windowCount now db₁ q ≤ 1 := by
        unfold windowCount
        rw [← ht, hfil₁]
        simp
      have hwc₁ : ∀ p ∈ qs, windowCount now db₁ p ≤ 1 := by
        intro p hp
        rw [windowCount_congr hlogs₁ (fun x hx h => hforeign p hp ((hfr x hx) ▸ h))]
        exact hwc p (List.mem_cons_of_mem _ hp)
      obtain ⟨ih_pw, ih_wc, ih_ni⟩ := runPairs_dedup_master now qs db₁ hnd' hwc₁ hpw₁
      obtain ⟨e₂, he₂, _, hp₂⟩ := runPairs_logs_append now qs db₁
      have he₂foreign : ∀ x ∈ e₂, x.scheduleId ≠ q.2.id := by
        intro x hx h
        obtain ⟨⟨r, hr, hrs, _⟩, _, _⟩ := hp₂ x hx
        exact hforeign r hr (h.symm.trans hrs)
      have hfinal₂ : (runPairs now db (q :: qs)).1 = (runPairs now db₁ qs).1 := by
        rw [runPairs_cons]
      refine ⟨by rw [hfinal₂]; exact ih_pw, ?_, ?_⟩
      · intro p hp
        rcases List.mem_cons.1 hp with rfl | hp'
        · rw [hfinal₂, windowCount_congr he₂ he₂foreign]
          exact hwc₁q
        · rw [hfinal₂]
          exact ih_wc p hp'
      · intro p hp
        rcases List.mem_cons.1 hp with rfl | hp'
        · rw [hfinal₂]
          intro hcon
          obtain ⟨_, hlnone, _⟩ := (stepInserts_congr he₂ he₂foreign).1 hcon
          rw [← ht, lookupDoseLog_of_filter_singleton hfil₁] at hlnone
          cases hlnone
        · rw [hfinal₂]
          exact ih_ni p hp'
    · have hdb₁ : (stepPair now db q).1 = db := stepPair_db_of_not_inserts hins
      have hfinal₂ : (runPairs now db (q :: qs)).1 = (runPairs now db qs).1 := by
        rw [runPairs_cons, hdb₁]
      obtain ⟨ih_pw, ih_wc, ih_ni⟩ := runPairs_dedup_master now qs db hnd'
        (fun p hp => hwc p (List.mem_cons_of_mem _ hp)) hpw
      obtain ⟨e₂, he₂, _, hp₂⟩ := runPairs_logs_append now qs db
      have he₂foreign : ∀ x ∈ e₂, x.scheduleId ≠ q.2.id := by
        intro x hx h
        obtain ⟨⟨r, hr, hrs, _⟩, _, _⟩ := hp₂ x hx
        exact hforeign r hr (h.symm.trans hrs)
      refine ⟨by rw [hfinal₂]; exact ih_pw, ?_, ?_⟩
      · intro p hp
        rcases List.mem_cons.1 hp with rfl | hp'
        · rw [hfinal₂, windowCount_congr he₂ he₂foreign]
          exact hwc p (List.mem_cons_self ..)
        · rw [hfinal₂]
          exact ih_wc p hp'
      · intro p hp
        rcases List.mem_cons.1 hp with rfl | hp'
        · rw [hfinal₂, stepInserts_congr he₂ he₂foreign]
          exact hins
        · rw [hfinal₂]
          exact ih_ni p hp'

lemma stepPair_views_toList (now : Now) (db : DB) (p : Medication × Schedule) :
    (stepPair now db p).2.map UpcomingDose.view = (viewStep now db p).toList := by
  unfold viewStep
  by_cases hw : now.weekday ∈ p.2.daysOfWeek
  · cases hl : lookupDoseLog p.2.id (scheduledTimeOf now p.2) db.logs with
    | some l =>
      rw [stepPair_found hw hl]
      rfl
    | none =>
      by_cases hn : (scheduledTimeOf now p.2 : Int) - (now.time : Int) < 3600000
      · rw [stepPair_insert hw hl hn]
        rfl
      · rw [stepPair_far hw hl hn]
        rfl
  · rw [stepPair_not_weekday hw]
    rfl

lemma viewStep_congr {now : Now} {db db₂ : DB} {p : Medication × Schedule}
    {e : List DoseLog} (hle : db₂.logs = db.logs ++ e)
    (he : ∀ x ∈ e, x.scheduleId ≠ p.2.id) :
    viewStep now db₂ p = viewStep now db p := by
  have h := @stepPair_view_congr now db db₂ p e hle he
  rw [stepPair_views_toList, stepPair_views_toList] at h
  cases h2 : viewStep now db₂ p <;> cases h1 : viewStep now db p <;>
    rw [h2, h1] at h <;> simp_all

lemma viewStep_time {now : Now} {db : DB} {p : Medication × Schedule} {v : DoseView}
    (h : viewStep now db p = some v) : v.scheduledTime = scheduledTimeOf now p.2 := by
  unfold viewStep at h
  cases hs : (stepPair now db p).2 with
  | nil => rw [hs] at h; cases h
  | cons d rest =>
    rw [hs] at h
    have hd := stepPair_out_fields now db p d (hs ▸ List.mem_cons_self ..)
    cases h
    exact hd.2.2

/-- With pairwise-distinct schedule ids, the views of the collected
occurrences are obtained pair by pair against the initial store. -/
lemma runPairs_views (now : Now) :
    ∀ (ps : List (Medication × Schedule)) (db : DB),
      (pairSids ps).Nodup →
      (runPairs now db ps).2.map UpcomingDose.view = ps.filterMap (viewStep now db)
  | [], _, _ => rfl
  | q :: qs, db, hnd => by
    have hnd' : (pairSids qs).Nodup := (List.nodup_cons.1 hnd).2
    have hq_not : q.2.id ∉ pairSids qs := (List.nodup_cons.1 hnd).1
    obtain ⟨e₁, he₁, _, hp₁⟩ := stepPair_logs_append now db q
    have he₁foreign : ∀ r ∈ qs, ∀ x ∈ e₁, x.scheduleId ≠ r.2.id := by
      intro r hr x hx h
      exact hq_not (((hp₁ x hx).1.symm.trans h) ▸ List.mem_map_of_mem _ hr)
    rw [runPairs_cons]
    rw [List.map_append, stepPair_views_toList,
      runPairs_views now qs (stepPair now db q).1 hnd']
    have hcongr : qs.filterMap (viewStep now (stepPair now db q).1)
        = qs.filterMap (viewStep now db) :=
      List.filterMap_congr fun r hr => viewStep_congr he₁ (he₁foreign r hr)
    rw [hcongr, List.filterMap_cons]
    cases hv : viewStep now db q <;> simp

lemma filterMap_map_sublist {α β γ : Type _} (f : α → Option β) (g : β → γ) (h : α → γ)
    (H : ∀ a b, f a = some b → g b = h a) :
    ∀ l : List α, List.Sublist ((l.filterMap f).map g) (l.map h)
  | [] => List.Sublist.slnil
  | a :: l => by
    rw [List.filterMap_cons, List.map_cons]
    cases hf : f a with
    | none => exact (filterMap_map_sublist f g h H l).cons (h a)
    | some b =>
      rw [List.map_cons, H a b hf]
      exact (filterMap_map_sublist f g h H l).cons₂ (h a)

/-- The times of all pairs of the iteration domain. -/
def pairTimes (now : Now) (ps : List (Medication × Schedule)) : List Nat :=
  ps.map fun p => scheduledTimeOf now p.2

/-- The views of the sorted occurrence list. -/
def sortedViews (now : Now) (meds : List Medication) (db : DB) : List DoseView :=
  (sortedDoses now meds db).map UpcomingDose.view

lemma sortedViews_sorted (now : Now) (meds : List Medication) (db : DB) :
    (sortedViews now meds db).Pairwise viewLE := by
  have h : (sortedDoses now meds db).Pairwise doseLE :=
    List.sorted_insertionSort doseLE (allDoses now meds db)
  exact h.map _ fun a b hab => hab

lemma sortedViews_perm (now : Now) (meds : List Medication) (db : DB) :
    List.Perm (sortedViews now meds db) ((allDoses now meds db).map UpcomingDose.view) :=
  (List.perm_insertionSort doseLE (allDoses now meds db)).map _

lemma sortedViews_times_nodup {now : Now} {meds : List Medication} {db : DB}
    (hnd : (pairSids (activeSchedulePairs meds)).Nodup)
    (hnt : (pairTimes now (activeSchedulePairs meds)).Nodup) :
    ((sortedViews now meds db).map DoseView.scheduledTime).Nodup := by
  have hsub : List.Sublist (((activeSchedulePairs meds).filterMap (viewStep now db)).map
      DoseView.scheduledTime) (pairTimes now (activeSchedulePairs meds)) :=
    filterMap_map_sublist _ _ _ (fun a b hf => viewStep_time hf) _
  have h1 : (((allDoses now meds db).map UpcomingDose.view).map
      DoseView.scheduledTime).Nodup := by
    rw [allDoses, runPairs_views now _ db hnd]
    exact List.Nodup.sublist hsub hnt
  exact (((sortedViews_perm now meds db).map DoseView.scheduledTime).nodup_iff).2 h1

lemma sortedViews_strict {now : Now} {meds : List Medication} {db : DB}
    (hnd : (pairSids (activeSchedulePairs meds)).Nodup)
    (hnt : (pairTimes now (activeSchedulePairs meds)).Nodup) :
    (sortedViews now meds db).Pairwise viewLT := by
  have h1 := sortedViews_sorted now meds db
  have h2 : (sortedViews now meds db).Pairwise
      fun a b => a.scheduledTime ≠ b.scheduledTime := by
    have h3 := @sortedViews_times_nodup now meds db hnd hnt
    exact List.pairwise_map.1 h3
  exact (h1.and h2).imp fun hab => Nat.lt_of_le_of_ne hab.1 hab.2

/-- With distinct schedule ids and pairwise-distinct scheduled timestamps,
the rendered content of the displayed prefix does not depend on the order in
which the pairs are processed. -/
lemma displayed_views_invariant {now : Now} {db : DB} {meds₁ meds₂ : List Medication}
    (hperm : List.Perm (activeSchedulePairs meds₂) (activeSchedulePairs meds₁))
    (hnd : (pairSids (activeSchedulePairs meds₁)).Nodup)
    (hnt : (pairTimes now (activeSchedulePairs meds₁)).Nodup) :
    (displayedDoses now meds₂ db).map UpcomingDose.view
      = (displayedDoses now meds₁ db).map UpcomingDose.view := by
  have hnd₂ : (pairSids (activeSchedulePairs meds₂)).Nodup := by
    unfold pairSids at hnd ⊢
    exact List.Perm.nodup
      (List.Perm.symm (List.Perm.map (fun p : Medication × Schedule => p.2.id) hperm)) hnd
  have hnt₂ : (pairTimes now (activeSchedulePairs meds₂)).Nodup := by
    unfold pairTimes at hnt ⊢
    exact List.Perm.nodup
      (List.Perm.symm
        (List.Perm.map (fun p : Medication × Schedule => scheduledTimeOf now p.2) hperm)) hnt
  have hv₁ : (allDoses now meds₁ db).map UpcomingDose.view
      = (activeSchedulePairs meds₁).filterMap (viewStep now db) :=
    runPairs_views now _ db hnd
  have hv₂ : (allDoses now meds₂ db).map UpcomingDose.view
      = (activeSchedulePairs meds₂).filterMap (viewStep now db) :=
    runPairs_views now _ db hnd₂
  have hpv : List.Perm ((allDoses now meds₂ db).map UpcomingDose.view)
      ((allDoses now meds₁ db).map UpcomingDose.view) := by
    rw [hv₁, hv₂]
    exact hperm.filterMap (viewStep now db)
  have hsv : List.Perm (sortedViews now meds₂ db) (sortedViews now meds₁ db) :=
    ((sortedViews_perm now meds₂ db).trans hpv).trans (sortedViews_perm now meds₁ db).symm
  have heq : sortedViews now meds₂ db = sortedViews now meds₁ db :=
    List.eq_of_perm_of_sorted hsv (sortedViews_strict hnd₂ hnt₂)
      (sortedViews_strict hnd hnt)
  unfold displayedDoses
  rw [List.map_take, List.map_take]
  have h₁ : (sortedDoses now meds₁ db).map UpcomingDose.view = sortedViews now meds₁ db := rfl
  have h₂ : (sortedDoses now meds₂ db).map UpcomingDose.view = sortedViews now meds₂ db := rfl
  rw [h₁, h₂, heq]

example :
    todayCompliance 0 [⟨0, 1, 10, none, DoseStatus.taken, none⟩,
      ⟨1, 1, 20, none, DoseStatus.pending, none⟩,
      ⟨2, 1, 30, none, DoseStatus.taken, none⟩] = 67 := by
  norm_num [todayCompliance, todayDoseLogs, jsRound, List.filter,
    show decide (DoseStatus.pending = DoseStatus.taken) = false from rfl,
    show decide (DoseStatus.taken = DoseStatus.taken) = true from rfl]

example : todayCompliance 0 [] = 100 := by
  norm_num [todayCompliance, todayDoseLogs]

lemma materializePass_eq (now : Now) (db : DB) :
    materializePass now db
      = (runPairs now db (activeSchedulePairs (db.meds.filter fun m => m.active))).1 := rfl

/-- C4: the reported daily compliance is 100 when the patient has no dose log
for the day, and otherwise the half-up rounding of 100 × K / N where N counts
the day's dose logs and K those with status `taken`. -/
theorem claim_C4_compliance (dayStart : Nat) (logs : List DoseLog) :
    todayCompliance dayStart logs =
      if (todayDoseLogs dayStart logs).length = 0 then 100
      else jsRound ((100 * (((todayDoseLogs dayStart logs).filter fun l =>
          decide (l.status = DoseStatus.taken)).length : ℚ)) /
        ((todayDoseLogs dayStart logs).length : ℚ)) := by
  unfold todayCompliance
  rcases Nat.eq_zero_or_pos (todayDoseLogs dayStart logs).length with h | h
  · rw [if_neg (by omega), if_pos h]
  · rw [if_pos h, if_neg (by omega)]
    congr 1
    ring

/-- C7: marking a pending occurrence taken sets its backing dose-log row to
status `taken` and records a taken timestamp equal to the time of the
action. -/
theorem claim_C7_mark_taken (takenTime : Nat) (dose : UpcomingDose) (db : DB)
    (dl : DoseLog) (h1 : dose.doseLog = some dl)
    (_h2 : dl.status = DoseStatus.pending) :
    ∀ l ∈ (markDoseTaken takenTime dose db).logs, l.id = dl.id →
      l.status = DoseStatus.taken ∧ l.takenAt = some takenTime := by
  intro l hl hid
  unfold markDoseTaken at hl
  rw [h1] at hl
  obtain ⟨y, _, rfl⟩ := List.mem_map.1 hl
  by_cases hcase : y.id = dl.id
  · rw [if_pos hcase]
    exact ⟨rfl, rfl⟩
  · exfalso
    rw [if_neg hcase] at hid
    exact hcase hid

theorem claim_C7_witness :
    exUpdatedLog.status = DoseStatus.taken ∧ exUpdatedLog.takenAt = some 28500000 :=
  claim_C7_mark_taken 28500000 exDosePending exDbPending exPendingLog rfl rfl
    exUpdatedLog (by decide) (by decide)

/-- C9: invoking mark-taken or mark-skipped on a displayed occurrence that has
no backing dose-log row leaves the store entirely unchanged. -/
theorem claim_C9_no_backing_row (takenTime : Nat) (dose : UpcomingDose) (db : DB)
    (h : dose.doseLog = none) :
    markDoseTaken takenTime dose db = db ∧ markDoseSkipped dose db = db := by
  constructor <;> simp [markDoseTaken, markDoseSkipped, h]

theorem claim_C9_witness :
    markDoseTaken 0 exDoseNoLog exDb = exDb ∧ markDoseSkipped exDoseNoLog exDb = exDb :=
  claim_C9_no_backing_row 0 exDoseNoLog exDb rfl

/-- C3 fails on the code: a dose log in the terminal state `taken` is silently
overwritten to `skipped` by a subsequent mark-skipped call — the result is
neither a no-op (the store changes) nor an error (the model returns the
updated store), and the stored status is replaced. -/
theorem claim_C3_counterexample :
    markDoseSkipped exDoseTaken exDbTaken ≠ exDbTaken
    ∧ (markDoseSkipped exDoseTaken exDbTaken).logs.map DoseLog.status
        = [DoseStatus.skipped]
    ∧ exDbTaken.logs.map DoseLog.status = [DoseStatus.taken] := by
  refine ⟨?_, rfl, rfl⟩
  intro h
  have h2 := congrArg (fun d => d.logs.map DoseLog.status) h
  simp [markDoseSkipped, exDbTaken, exDoseTaken, exTakenLog] at h2

/-- C3 amended: the code performs the silent overwrite the claim rules out —
`markDoseSkipped` applied to a dose whose backing row is in the terminal state
`taken` rewrites every row with that id to status `skipped`, leaving the other
columns (including the taken timestamp) unchanged; nothing makes the attempt a
no-op or an error. -/
theorem claim_C3_amended (dose : UpcomingDose) (db : DB) (dl l : DoseLog)
    (h1 : dose.doseLog = some dl) (h2 : l ∈ db.logs) (h3 : l.id = dl.id)
    (_h4 : l.status = DoseStatus.taken) :
    { l with status := DoseStatus.skipped } ∈ (markDoseSkipped dose db).logs
    ∧ ∀ x ∈ (markDoseSkipped dose db).logs, x.id = dl.id →
        x.status = DoseStatus.skipped := by
  constructor
  · simp only [markDoseSkipped, h1]
    refine List.mem_map.2 ⟨l, h2, ?_⟩
    rw [if_pos h3]
  · intro x hx hid
    simp only [markDoseSkipped, h1] at hx
    obtain ⟨y, _, rfl⟩ := List.mem_map.1 hx
    by_cases hcase : y.id = dl.id
    · rw [if_pos hcase]
    · exfalso
      rw [if_neg hcase] at hid
      exact hcase hid

theorem claim_C3_amended_witness :
    { exTakenLog with status := DoseStatus.skipped }
        ∈ (markDoseSkipped exDoseTaken exDbTaken).logs
    ∧ ∀ x ∈ (markDoseSkipped exDoseTaken exDbTaken).logs, x.id = exTakenLog.id →
        x.status = DoseStatus.skipped :=
  claim_C3_amended exDoseTaken exDbTaken exTakenLog exTakenLog rfl
    (List.mem_singleton.2 rfl) rfl rfl

/-- C8: a materialization pass only appends dose-log rows: the medication rows
(with their schedules) are unchanged, every pre-existing dose-log row is
unchanged and in place, and everything appended is a fresh `pending` row with
no taken timestamp. -/
theorem claim_C8_frame (now : Now) (db : DB) :
    (materializePass now db).meds = db.meds
    ∧ ∃ newLogs, (materializePass now db).logs = db.logs ++ newLogs
        ∧ ∀ l ∈ newLogs, l.status = DoseStatus.pending ∧ l.takenAt = none := by
  rw [materializePass_eq]
  have hmeds := runPairs_meds now (activeSchedulePairs (db.meds.filter fun m => m.active)) db
  obtain ⟨e, he, _, hp⟩ :=
    runPairs_logs_append now (activeSchedulePairs (db.meds.filter fun m => m.active)) db
  exact ⟨hmeds, e, he, fun l hl => ⟨(hp l hl).2.1, (hp l hl).2.2⟩⟩

lemma displayed_mem_allDoses (now : Now) (meds : List Medication) (db : DB) :
    ∀ d ∈ displayedDoses now meds db, d ∈ allDoses now meds db := by
  intro d hd
  have h3 : d ∈ sortedDoses now meds db := List.mem_of_mem_take hd
  exact ((List.perm_insertionSort doseLE (allDoses now meds db)).mem_iff).1 h3

/-- C1: for an active medication and an active schedule covering today's
weekday, one pass creates a row for that schedule exactly when no row lies in
the one-minute window of the scheduled time and the scheduled time is less
than one hour after now (no lower bound); created rows are `pending` with no
taken timestamp, and a row created for the schedule carries the scheduled
time. -/
theorem claim_C1_materialization (now : Now) (db : DB) (med : Medication) (s : Schedule)
    (hnd : (pairSids (activeSchedulePairs (db.meds.filter fun m => m.active))).Nodup)
    (hmed : med ∈ db.meds) (hma : med.active = true)
    (hs : s ∈ med.schedules) (hsa : s.active = true)
    (hw : now.weekday ∈ s.daysOfWeek)
    (hwc : (db.logs.filter (logMatches s.id (scheduledTimeOf now s))).length ≤ 1) :
    ((∃ l ∈ createdLogs now db, l.scheduleId = s.id) ↔
      ((∀ l ∈ db.logs, ¬(l.scheduleId = s.id ∧ scheduledTimeOf now s ≤ l.scheduledTime
          ∧ l.scheduledTime < scheduledTimeOf now s + 60000))
        ∧ (scheduledTimeOf now s : Int) - (now.time : Int) < 3600000))
    ∧ (∀ l ∈ createdLogs now db, l.status = DoseStatus.pending ∧ l.takenAt = none)
    ∧ (∀ l ∈ createdLogs now db, l.scheduleId = s.id →
        l.scheduledTime = scheduledTimeOf now s) := by
  have hp : (med, s) ∈ activeSchedulePairs (db.meds.filter fun m => m.active) := by
    unfold activeSchedulePairs
    refine List.mem_flatMap.2 ⟨med, List.mem_filter.2 ⟨hmed, hma⟩, ?_⟩
    exact List.mem_map.2 ⟨s, List.mem_filter.2 ⟨hs, hsa⟩, rfl⟩
  have hcreated : createdLogs now db
      = (runPairs now db (activeSchedulePairs (db.meds.filter fun m => m.active))).1.logs.drop
          db.logs.length := by
    unfold createdLogs
    rw [materializePass_eq]
  have hcontr := (runPairs_contribution now
    (activeSchedulePairs (db.meds.filter fun m => m.active)) db hnd (med, s) hp).2
  rw [← hcreated] at hcontr
  obtain ⟨e, he, _, hprop⟩ :=
    runPairs_logs_append now (activeSchedulePairs (db.meds.filter fun m => m.active)) db
  have hce : createdLogs now db = e := by
    rw [hcreated, he, List.drop_left]
  have part2 : ∀ l ∈ createdLogs now db, l.status = DoseStatus.pending ∧ l.takenAt = none := by
    rw [hce]
    exact fun l hl => ⟨(hprop l hl).2.1, (hprop l hl).2.2⟩
  by_cases hmatch : ∀ l ∈ db.logs, ¬(l.scheduleId = s.id
      ∧ scheduledTimeOf now s ≤ l.scheduledTime
      ∧ l.scheduledTime < scheduledTimeOf now s + 60000)
  · have hfil : db.logs.filter (logMatches s.id (scheduledTimeOf now s)) = [] :=
      List.filter_eq_nil_iff.2 fun l hl hml => hmatch l hl (logMatches_eq_true_iff.1 hml)
    have hlk : lookupDoseLog s.id (scheduledTimeOf now s) db.logs = none :=
      lookupDoseLog_of_filter_nil hfil
    by_cases hn : (scheduledTimeOf now s : Int) - (now.time : Int) < 3600000
    · have hstep := @stepPair_insert now db (med, s) hw hlk hn
      have hstepc : (stepPair now db (med, s)).1.logs.drop db.logs.length
          = [freshLog db (med, s) (scheduledTimeOf now s)] := by
        rw [hstep]
        exact List.drop_left db.logs _
      rw [hstepc] at hcontr
      refine ⟨⟨fun _ => ⟨hmatch, hn⟩, fun _ => ?_⟩, part2, ?_⟩
      · rcases hl0 : logsFor (createdLogs now db) s.id with _ | ⟨x, xs⟩
        · rw [hl0] at hcontr
          cases hcontr
        · have hxmem : x ∈ logsFor (createdLogs now db) s.id := by
            rw [hl0]
            exact List.mem_cons_self ..
          have hx2 := List.mem_filter.1 hxmem
          exact ⟨x, hx2.1, of_decide_eq_true hx2.2⟩
      · intro l hl hsid
        have hmemf : l ∈ logsFor (createdLogs now db) s.id :=
          List.mem_filter.2 ⟨hl, decide_eq_true hsid⟩
        have hmd : l.data ∈ (logsFor (createdLogs now db) s.id).map DoseLog.data :=
          List.mem_map_of_mem _ hmemf
        rw [hcontr] at hmd
        simp only [List.map_cons, List.map_nil, List.mem_singleton] at hmd
        have := congrArg LogData.scheduledTime hmd
        simpa [DoseLog.data, freshLog] using this
    · have hstep := @stepPair_far now db (med, s) hw hlk hn
      have hstepc : (stepPair now db (med, s)).1.logs.drop db.logs.length = [] := by
        rw [hstep]
        exact List.drop_length db.logs
      rw [hstepc] at hcontr
      have hnone : logsFor (createdLogs now db) s.id = [] :=
        List.map_eq_nil_iff.1 hcontr
      have hnomem : ∀ l ∈ createdLogs now db, l.scheduleId ≠ s.id := by
        intro l hl hsid
        have hm : l ∈ logsFor (createdLogs now db) s.id :=
          List.mem_filter.2 ⟨hl, decide_eq_true hsid⟩
        rw [hnone] at hm
        exact absurd hm (List.not_mem_nil l)
      refine ⟨⟨?_, ?_⟩, part2, ?_⟩
      · rintro ⟨l, hl, hsid⟩
        exact absurd hsid (hnomem l hl)
      · rintro ⟨_, hn2⟩
        exact absurd hn2 hn
      · intro l hl hsid
        exact absurd hsid (hnomem l hl)
  · have hne : db.logs.filter (logMatches s.id (scheduledTimeOf now s)) ≠ [] := by
      intro hnil
      exact hmatch fun l hl hprop2 =>
        (List.filter_eq_nil_iff.1 hnil l hl) (logMatches_eq_true_iff.2 hprop2)
    obtain ⟨x, hx⟩ : ∃ x, db.logs.filter (logMatches s.id (scheduledTimeOf now s)) = [x] := by
      rcases hf : db.logs.filter (logMatches s.id (scheduledTimeOf now s)) with _ | ⟨a, _ | ⟨b, r⟩⟩
      · exact absurd hf hne
      · exact ⟨a, rfl⟩
      · rw [hf] at hwc
        simp at hwc
    have hlk := lookupDoseLog_of_filter_singleton hx
    have hstep := @stepPair_found now db (med, s) x hw hlk
    have hstepc : (stepPair now db (med, s)).1.logs.drop db.logs.length = [] := by
      rw [hstep]
      exact List.drop_length db.logs
    rw [hstepc] at hcontr
    have hnone : logsFor (createdLogs now db) s.id = [] :=
      List.map_eq_nil_iff.1 hcontr
    have hnomem : ∀ l ∈ createdLogs now db, l.scheduleId ≠ s.id := by
      intro l hl hsid
      have hm : l ∈ logsFor (createdLogs now db) s.id :=
        List.mem_filter.2 ⟨hl, decide_eq_true hsid⟩
      rw [hnone] at hm
      exact absurd hm (List.not_mem_nil l)
    refine ⟨⟨?_, ?_⟩, part2, ?_⟩
    · rintro ⟨l, hl, hsid⟩
      exact absurd hsid (hnomem l hl)
    · rintro ⟨hforall, _⟩
      exact absurd hforall hmatch
    · intro l hl hsid
      exact absurd hsid (hnomem l hl)

theorem claim_C1_witness :
    ((∃ l ∈ createdLogs exNow exDb, l.scheduleId = exSchedA.id) ↔
      ((∀ l ∈ exDb.logs, ¬(l.scheduleId = exSchedA.id
          ∧ scheduledTimeOf exNow exSchedA ≤ l.scheduledTime
          ∧ l.scheduledTime < scheduledTimeOf exNow exSchedA + 60000))
        ∧ (scheduledTimeOf exNow exSchedA : Int) - (exNow.time : Int) < 3600000))
    ∧ (∀ l ∈ createdLogs exNow exDb, l.status = DoseStatus.pending ∧ l.takenAt = none)
    ∧ (∀ l ∈ createdLogs exNow exDb, l.scheduleId = exSchedA.id →
        l.scheduledTime = scheduledTimeOf exNow exSchedA) :=
  claim_C1_materialization exNow exDb exMedA exSchedA (by decide) (by decide) (by decide)
    (by decide) (by decide) (by decide) (by decide)

/-- C2: under the store invariants the code itself maintains (pairwise-distinct
schedule ids, at most one row in each pair's one-minute window, no duplicate
(schedule, scheduled-timestamp) key), a second pass with the same now and the
same medications changes nothing, and both invariants are preserved, so at
most one row per (schedule, scheduled-timestamp) pair ever exists. -/
theorem claim_C2_idempotent (now : Now) (db : DB)
    (hnd : (pairSids (activeSchedulePairs (db.meds.filter fun m => m.active))).Nodup)
    (hwc : ∀ p ∈ activeSchedulePairs (db.meds.filter fun m => m.active),
      windowCount now db p ≤ 1)
    (hpw : db.logs.Pairwise logKeyNe) :
    materializePass now (materializePass now db) = materializePass now db
    ∧ (materializePass now db).logs.Pairwise logKeyNe
    ∧ ∀ p ∈ activeSchedulePairs (db.meds.filter fun m => m.active),
        windowCount now (materializePass now db) p ≤ 1 := by
  obtain ⟨h_pw, h_wc, h_ni⟩ := runPairs_dedup_master now
    (activeSchedulePairs (db.meds.filter fun m => m.active)) db hnd hwc hpw
  have hmeds : (materializePass now db).meds = db.meds := by
    rw [materializePass_eq]
    exact runPairs_meds now (activeSchedulePairs (db.meds.filter fun m => m.active)) db
  have hfix := runPairs_fix now (activeSchedulePairs (db.meds.filter fun m => m.active))
    (materializePass now db) (fun p hp => by rw [materializePass_eq]; exact h_ni p hp)
  refine ⟨?_, by rw [materializePass_eq]; exact h_pw,
    fun p hp => by rw [materializePass_eq]; exact h_wc p hp⟩
  calc materializePass now (materializePass now db)
      = (runPairs now (materializePass now db)
          (activeSchedulePairs ((materializePass now db).meds.filter fun m => m.active))).1 :=
        materializePass_eq now (materializePass now db)
    _ = (runPairs now (materializePass now db)
          (activeSchedulePairs (db.meds.filter fun m => m.active))).1 := by rw [hmeds]
    _ = materializePass now db := hfix

theorem claim_C2_witness :
    materializePass exNow (materializePass exNow exDb) = materializePass exNow exDb
    ∧ (materializePass exNow exDb).logs.Pairwise logKeyNe
    ∧ ∀ p ∈ activeSchedulePairs (exDb.meds.filter fun m => m.active),
        windowCount exNow (materializePass exNow exDb) p ≤ 1 :=
  claim_C2_idempotent exNow exDb (by decide) (by decide) (by decide)

/-- C5: a schedule whose weekday set does not contain today's weekday (also
the empty set) contributes no occurrence to the collected or displayed lists
and no created dose-log row, regardless of its time-of-day. -/
theorem claim_C5_weekday_excluded (now : Now) (db : DB) (med : Medication) (s : Schedule)
    (hnd : (pairSids (activeSchedulePairs (db.meds.filter fun m => m.active))).Nodup)
    (hmed : med ∈ db.meds) (hma : med.active = true)
    (hs : s ∈ med.schedules) (hsa : s.active = true)
    (hw : now.weekday ∉ s.daysOfWeek) :
    (∀ d ∈ allDoses now (db.meds.filter fun m => m.active) db, d.schedule.id ≠ s.id)
    ∧ (∀ d ∈ (loadData now db).2, d.schedule.id ≠ s.id)
    ∧ (∀ l ∈ createdLogs now db, l.scheduleId ≠ s.id) := by
  have hp : (med, s) ∈ activeSchedulePairs (db.meds.filter fun m => m.active) := by
    unfold activeSchedulePairs
    refine List.mem_flatMap.2 ⟨med, List.mem_filter.2 ⟨hmed, hma⟩, ?_⟩
    exact List.mem_map.2 ⟨s, List.mem_filter.2 ⟨hs, hsa⟩, rfl⟩
  obtain ⟨hc1, hc2⟩ := runPairs_contribution now
    (activeSchedulePairs (db.meds.filter fun m => m.active)) db hnd (med, s) hp
  have hstep := @stepPair_not_weekday now db (med, s) hw
  rw [hstep] at hc1 hc2
  have hall : allDoses now (db.meds.filter fun m => m.active) db
      = (runPairs now db (activeSchedulePairs (db.meds.filter fun m => m.active))).2 := rfl
  have hdo : dosesFor (allDoses now (db.meds.filter fun m => m.active) db) s.id = [] := by
    rw [hall]
    exact List.map_eq_nil_iff.1 hc1
  have hout : ∀ d ∈ allDoses now (db.meds.filter fun m => m.active) db,
      d.schedule.id ≠ s.id := by
    intro d hd hsid
    have hm : d ∈ dosesFor (allDoses now (db.meds.filter fun m => m.active) db) s.id :=
      List.mem_filter.2 ⟨hd, decide_eq_true hsid⟩
    rw [hdo] at hm
    exact absurd hm (List.not_mem_nil d)
  have hcreated : createdLogs now db
      = (runPairs now db (activeSchedulePairs (db.meds.filter fun m => m.active))).1.logs.drop
          db.logs.length := by
    unfold createdLogs
    rw [materializePass_eq]
  have hstepc : (db.logs.drop db.logs.length).map DoseLog.data = [] := by
    rw [List.drop_length]
    rfl
  rw [hstepc] at hc2
  have hnone : logsFor (createdLogs now db) s.id = [] := by
    rw [hcreated]
    exact List.map_eq_nil_iff.1 hc2
  refine ⟨hout, ?_, ?_⟩
  · intro d hd
    exact hout d (displayed_mem_allDoses now (db.meds.filter fun m => m.active) db d hd)
  · intro l hl hsid
    have hm : l ∈ logsFor (createdLogs now db) s.id :=
      List.mem_filter.2 ⟨hl, decide_eq_true hsid⟩
    rw [hnone] at hm
    exact absurd hm (List.not_mem_nil l)

theorem claim_C5_witness :
    (∀ d ∈ allDoses exNowTue (exDb.meds.filter fun m => m.active) exDb,
      d.schedule.id ≠ exSchedA.id)
    ∧ (∀ d ∈ (loadData exNowTue exDb).2, d.schedule.id ≠ exSchedA.id)
    ∧ (∀ l ∈ createdLogs exNowTue exDb, l.scheduleId ≠ exSchedA.id) :=
  claim_C5_weekday_excluded exNowTue exDb exMedA exSchedA (by decide) (by decide)
    (by decide) (by decide) (by decide) (by decide)

/-- C10: an occurrence due today but scheduled one hour or more after now, with
no backing row in the store, is entirely absent: no row is created for the
schedule and no occurrence of the schedule appears in the collected or
displayed lists. -/
theorem claim_C10_far_future_absent (now : Now) (db : DB) (med : Medication) (s : Schedule)
    (hnd : (pairSids (activeSchedulePairs (db.meds.filter fun m => m.active))).Nodup)
    (hmed : med ∈ db.meds) (hma : med.active = true)
    (hs : s ∈ med.schedules) (hsa : s.active = true)
    (hw : now.weekday ∈ s.daysOfWeek)
    (hnolog : ∀ l ∈ db.logs, ¬(l.scheduleId = s.id
      ∧ scheduledTimeOf now s ≤ l.scheduledTime
      ∧ l.scheduledTime < scheduledTimeOf now s + 60000))
    (hfar : 3600000 ≤ (scheduledTimeOf now s : Int) - (now.time : Int)) :
    (∀ d ∈ allDoses now (db.meds.filter fun m => m.active) db, d.schedule.id ≠ s.id)
    ∧ (∀ d ∈ (loadData now db).2, d.schedule.id ≠ s.id)
    ∧ (∀ l ∈ createdLogs now db, l.scheduleId ≠ s.id) := by
  have hp : (med, s) ∈ activeSchedulePairs (db.meds.filter fun m => m.active) := by
    unfold activeSchedulePairs
    refine List.mem_flatMap.2 ⟨med, List.mem_filter.2 ⟨hmed, hma⟩, ?_⟩
    exact List.mem_map.2 ⟨s, List.mem_filter.2 ⟨hs, hsa⟩, rfl⟩
  obtain ⟨hc1, hc2⟩ := runPairs_contribution now
    (activeSchedulePairs (db.meds.filter fun m => m.active)) db hnd (med, s) hp
  have hfil : db.logs.filter (logMatches s.id (scheduledTimeOf now s)) = [] :=
    List.filter_eq_nil_iff.2 fun l hl hml => hnolog l hl (logMatches_eq_true_iff.1 hml)
  have hlk : lookupDoseLog s.id (scheduledTimeOf now s) db.logs = none :=
    lookupDoseLog_of_filter_nil hfil
  have hstep := @stepPair_far now db (med, s) hw hlk (not_lt.2 hfar)
  rw [hstep] at hc1 hc2
  have hall : allDoses now (db.meds.filter fun m => m.active) db
      = (runPairs now db (activeSchedulePairs (db.meds.filter fun m => m.active))).2 := rfl
  have hdo : dosesFor (allDoses now (db.meds.filter fun m => m.active) db) s.id = [] := by
    rw [hall]
    exact List.map_eq_nil_iff.1 hc1
  have hout : ∀ d ∈ allDoses now (db.meds.filter fun m => m.active) db,
      d.schedule.id ≠ s.id := by
    intro d hd hsid
    have hm : d ∈ dosesFor (allDoses now (db.meds.filter fun m => m.active) db) s.id :=
      List.mem_filter.2 ⟨hd, decide_eq_true hsid⟩
    rw [hdo] at hm
    exact absurd hm (List.not_mem_nil d)
  have hcreated : createdLogs now db
      = (runPairs now db (activeSchedulePairs (db.meds.filter fun m => m.active))).1.logs.drop
          db.logs.length := by
    unfold createdLogs
    rw [materializePass_eq]
  have hstepc : (db.logs.drop db.logs.length).map DoseLog.data = [] := by
    rw [List.drop_length]
    rfl
  rw [hstepc] at hc2
  have hnone : logsFor (createdLogs now db) s.id = [] := by
    rw [hcreated]
    exact List.map_eq_nil_iff.1 hc2
  refine ⟨hout, ?_, ?_⟩
  · intro d hd
    exact hout d (displayed_mem_allDoses now (db.meds.filter fun m => m.active) db d hd)
  · intro l hl hsid
    have hm : l ∈ logsFor (createdLogs now db) s.id :=
      List.mem_filter.2 ⟨hl, decide_eq_true hsid⟩
    rw [hnone] at hm
    exact absurd hm (List.not_mem_nil l)

theorem claim_C10_witness :
    (∀ d ∈ allDoses exNowEarly (exDb.meds.filter fun m => m.active) exDb,
      d.schedule.id ≠ exSchedA.id)
    ∧ (∀ d ∈ (loadData exNowEarly exDb).2, d.schedule.id ≠ exSchedA.id)
    ∧ (∀ l ∈ createdLogs exNowEarly exDb, l.scheduleId ≠ exSchedA.id) :=
  claim_C10_far_future_absent exNowEarly exDb exMedA exSchedA (by decide) (by decide)
    (by decide) (by decide) (by decide) (by decide) (by decide) (by decide)

/-- C6 fails on the code as stated: with tied scheduled timestamps the
displayed prefix depends on the processing order (first conjunct), and even
with distinct timestamps the full displayed records depend on it through the
store-assigned ids of freshly created rows (second conjunct). -/
theorem claim_C6_counterexample :
    (generateUpcomingDoses exNow [exMedA, exMedB] exDb).2
      ≠ (generateUpcomingDoses exNow [exMedB, exMedA] exDb).2
    ∧ (generateUpcomingDoses exNow [exMedA, exMedC] exDb).2
      ≠ (generateUpcomingDoses exNow [exMedC, exMedA] exDb).2 := by
  constructor <;> decide

/-- C6 amended: the exposed list is the 5-element prefix of the ascending sort
by scheduled timestamp — sorted, at most 5 long, and below every undisplayed
occurrence — and, provided schedule ids and all scheduled timestamps are
pairwise distinct, its rendered content (medication, schedule, scheduled time,
display status) is independent of the order in which schedules are
processed. -/
theorem claim_C6_display_contract (now : Now) (db : DB) (meds : List Medication)
    (hnd : (pairSids (activeSchedulePairs meds)).Nodup)
    (hnt : (pairTimes now (activeSchedulePairs meds)).Nodup) :
    (generateUpcomingDoses now meds db).2.Pairwise doseLE
    ∧ (generateUpcomingDoses now meds db).2.length ≤ 5
    ∧ (∀ a ∈ (generateUpcomingDoses now meds db).2,
        ∀ b ∈ (sortedDoses now meds db).drop 5, a.scheduledTime ≤ b.scheduledTime)
    ∧ ∀ meds₂, List.Perm (activeSchedulePairs meds₂) (activeSchedulePairs meds) →
        (generateUpcomingDoses now meds₂ db).2.map UpcomingDose.view
          = (generateUpcomingDoses now meds db).2.map UpcomingDose.view := by
  have hsorted : (sortedDoses now meds db).Pairwise doseLE :=
    List.sorted_insertionSort doseLE (allDoses now meds db)
  have hgen : (generateUpcomingDoses now meds db).2 = (sortedDoses now meds db).take 5 := rfl
  refine ⟨hsorted.take, ?_, ?_, ?_⟩
  · rw [hgen, List.length_take]
    exact Nat.min_le_left 5 _
  · have h2 := hsorted
    rw [(List.take_append_drop 5 (sortedDoses now meds db)).symm] at h2
    exact fun a ha b hb => (List.pairwise_append.1 h2).2.2 a ha b hb
  · intro meds₂ hperm
    exact displayed_views_invariant hperm hnd hnt

theorem claim_C6_witness :
    (generateUpcomingDoses exNow [exMedA, exMedC] exDb).2.Pairwise doseLE
    ∧ (generateUpcomingDoses exNow [exMedA, exMedC] exDb).2.length ≤ 5
    ∧ (∀ a ∈ (generateUpcomingDoses exNow [exMedA, exMedC] exDb).2,
        ∀ b ∈ (sortedDoses exNow [exMedA, exMedC] exDb).drop 5,
          a.scheduledTime ≤ b.scheduledTime)
    ∧ ∀ meds₂, List.Perm (activeSchedulePairs meds₂)
          (activeSchedulePairs [exMedA, exMedC]) →
        (generateUpcomingDoses exNow meds₂ exDb).2.map UpcomingDose.view
          = (generateUpcomingDoses exNow [exMedA, exMedC] exDb).2.map UpcomingDose.view :=
  claim_C6_display_contract exNow exDb [exMedA, exMedC] (by decide) (by decide)
